import Mathlib

/-!
Verification of the syntect-tui adapter (src/lib.rs): a shallow embedding of
the four pure translation functions (`translate_colour`, `translate_font_style`,
`translate_style`, `into_span`) together with the fragments of the external
data models they operate on (syntect's `Color`/`FontStyle`/`Style` and tui's
`Color`/`Modifier`/`Style`/`Span`).  Machine integers are modelled as `Nat`
with the byte ranges stated explicitly where a claim depends on them; bitflag
types are structures wrapping their raw bit value, with the flag constants
taken from the upstream libraries (syntect: BOLD = 1, UNDERLINE = 2,
ITALIC = 4 on a u8; tui: BOLD = 1, DIM = 2, ITALIC = 4, UNDERLINED = 8, ...
on a u16).
-/

namespace Syntect

/-- syntect::highlighting::Color — four 8-bit unsigned channels r, g, b, a. -/
structure Color where
  r : Nat
  g : Nat
  b : Nat
  a : Nat
  deriving DecidableEq, Repr

/-- syntect::highlighting::FontStyle — a u8 bitflags value. -/
structure FontStyle where
  bits : Nat
  deriving DecidableEq, Repr

/-- FontStyle::empty(): no flag set. -/
def FontStyle.empty : FontStyle := ⟨0⟩

/-- FontStyle::BOLD = 1. -/
def FontStyle.BOLD : FontStyle := ⟨1⟩

/-- FontStyle::UNDERLINE = 2. -/
def FontStyle.UNDERLINE : FontStyle := ⟨2⟩

/-- FontStyle::ITALIC = 4. -/
def FontStyle.ITALIC : FontStyle := ⟨4⟩

/-- Bitwise union of two font styles (the bitflags BitOr). -/
def FontStyle.union (x y : FontStyle) : FontStyle := ⟨x.bits ||| y.bits⟩

/-- syntect::highlighting::Style — foreground and background colours plus a
font style bitset. -/
structure Style where
  foreground : Color
  background : Color
  font_style : FontStyle
  deriving DecidableEq, Repr

end Syntect

namespace Tui

/-- tui::style::Color — the target colour vocabulary; this adapter only ever
produces the `Rgb` variant. -/
inductive Color where
  | Reset
  | Black
  | Red
  | Green
  | Yellow
  | Blue
  | Magenta
  | Cyan
  | Gray
  | DarkGray
  | LightRed
  | LightGreen
  | LightYellow
  | LightBlue
  | LightMagenta
  | LightCyan
  | White
  | Rgb (r g b : Nat)
  | Indexed (i : Nat)
  deriving DecidableEq, Repr

/-- tui::style::Modifier — a u16 bitflags value of text modifiers. -/
structure Modifier where
  bits : Nat
  deriving DecidableEq, Repr

/-- Modifier::empty(): no flag set. -/
def Modifier.empty : Modifier := ⟨0⟩

/-- Modifier::BOLD = 0b0000_0000_0001. -/
def Modifier.BOLD : Modifier := ⟨1⟩

/-- Modifier::DIM = 0b0000_0000_0010. -/
def Modifier.DIM : Modifier := ⟨2⟩

/-- Modifier::ITALIC = 0b0000_0000_0100. -/
def Modifier.ITALIC : Modifier := ⟨4⟩

/-- Modifier::UNDERLINED = 0b0000_0000_1000. -/
def Modifier.UNDERLINED : Modifier := ⟨8⟩

/-- Bitwise union of two modifiers (the bitflags BitOr). -/
def Modifier.union (x y : Modifier) : Modifier := ⟨x.bits ||| y.bits⟩

/-- tui::style::Style — optional foreground and background colours and the
additive / subtractive modifier bitsets. -/
structure Style where
  fg : Option Color
  bg : Option Color
  add_modifier : Modifier
  sub_modifier : Modifier
  deriving DecidableEq, Repr

/-- tui::text::Span — owned text content paired with a style. -/
structure Span where
  content : String
  style : Style
  deriving DecidableEq, Repr

/-- Span::styled — builds a span from content and a style. -/
def Span.styled (content : String) (style : Style) : Span :=
  { content := content, style := style }

end Tui

/-- SyntectTuiError — the single error kind of the crate; UnknownFontStyle
carries the raw u8 bit value of the unrecognized font style. -/
inductive SyntectTuiError where
  | UnknownFontStyle (bits : Nat)
  deriving DecidableEq, Repr

/-- translate_colour (src/lib.rs lines 137-144): alpha > 0 yields
Some(Rgb r g b); alpha = 0 yields None. -/
def translate_colour (syntect_color : Syntect.Color) : Option Tui.Color :=
  if syntect_color.a > 0 then
    some (Tui.Color.Rgb syntect_color.r syntect_color.g syntect_color.b)
  else
    none

/-- translate_font_style (src/lib.rs lines 163-187): the sequential match on
exact equality against the 8 explicit flag combinations, falling through to
UnknownFontStyle with the raw bits. -/
def translate_font_style (x : Syntect.FontStyle) :
    Except SyntectTuiError Tui.Modifier :=
  if x = Syntect.FontStyle.empty then
    .ok Tui.Modifier.empty
  else if x = Syntect.FontStyle.BOLD then
    .ok Tui.Modifier.BOLD
  else if x = Syntect.FontStyle.ITALIC then
    .ok Tui.Modifier.ITALIC
  else if x = Syntect.FontStyle.UNDERLINE then
    .ok Tui.Modifier.UNDERLINED
  else if x = Syntect.FontStyle.BOLD.union Syntect.FontStyle.ITALIC then
    .ok (Tui.Modifier.BOLD.union Tui.Modifier.ITALIC)
  else if x = Syntect.FontStyle.BOLD.union Syntect.FontStyle.UNDERLINE then
    .ok (Tui.Modifier.BOLD.union Tui.Modifier.UNDERLINED)
  else if x = Syntect.FontStyle.ITALIC.union Syntect.FontStyle.UNDERLINE then
    .ok (Tui.Modifier.ITALIC.union Tui.Modifier.UNDERLINED)
  else if x = (Syntect.FontStyle.BOLD.union Syntect.FontStyle.ITALIC).union
      Syntect.FontStyle.UNDERLINE then
    .ok ((Tui.Modifier.BOLD.union Tui.Modifier.ITALIC).union
      Tui.Modifier.UNDERLINED)
  else
    .error (.UnknownFontStyle x.bits)

/-- translate_style (src/lib.rs lines 106-115): builds the tui style from the
two colour translations and the font-style translation, propagating the
latter's error via the question-mark operator; sub_modifier is always empty. -/
def translate_style (syntect_style : Syntect.Style) :
    Except SyntectTuiError Tui.Style :=
  (translate_font_style syntect_style.font_style).map (fun add_modifier =>
    { fg := translate_colour syntect_style.foreground
      bg := translate_colour syntect_style.background
      add_modifier := add_modifier
      sub_modifier := Tui.Modifier.empty })

/-- into_span (src/lib.rs lines 70-77): copies the text into an owned string
and pairs it with the translated style, propagating translate_style's error. -/
def into_span (arg : Syntect.Style × String) :
    Except SyntectTuiError Tui.Span :=
  (translate_style arg.1).map (fun style => Tui.Span.styled arg.2 style)

/-- The 8 recognized font-style values: every subset of
{BOLD, ITALIC, UNDERLINE}, exactly as enumerated by the match arms of
translate_font_style. -/
def recognized_font_styles : List Syntect.FontStyle :=
  [Syntect.FontStyle.empty,
   Syntect.FontStyle.BOLD,
   Syntect.FontStyle.ITALIC,
   Syntect.FontStyle.UNDERLINE,
   Syntect.FontStyle.BOLD.union Syntect.FontStyle.ITALIC,
   Syntect.FontStyle.BOLD.union Syntect.FontStyle.UNDERLINE,
   Syntect.FontStyle.ITALIC.union Syntect.FontStyle.UNDERLINE,
   (Syntect.FontStyle.BOLD.union Syntect.FontStyle.ITALIC).union
     Syntect.FontStyle.UNDERLINE]

/-- Claim C1: for each of the 8 recognized emphasis subsets of
{bold, italic, underline}, translate_font_style returns Ok of the
corresponding exact target subset, with underline mapped to the target's
UNDERLINED flag. -/
theorem c1_translate_font_style_recognized_exact :
    translate_font_style Syntect.FontStyle.empty = .ok Tui.Modifier.empty ∧
    translate_font_style Syntect.FontStyle.BOLD = .ok Tui.Modifier.BOLD ∧
    translate_font_style Syntect.FontStyle.ITALIC = .ok Tui.Modifier.ITALIC ∧
    translate_font_style Syntect.FontStyle.UNDERLINE =
      .ok Tui.Modifier.UNDERLINED ∧
    translate_font_style (Syntect.FontStyle.BOLD.union Syntect.FontStyle.ITALIC)
      = .ok (Tui.Modifier.BOLD.union Tui.Modifier.ITALIC) ∧
    translate_font_style
      (Syntect.FontStyle.BOLD.union Syntect.FontStyle.UNDERLINE)
      = .ok (Tui.Modifier.BOLD.union Tui.Modifier.UNDERLINED) ∧
    translate_font_style
      (Syntect.FontStyle.ITALIC.union Syntect.FontStyle.UNDERLINE)
      = .ok (Tui.Modifier.ITALIC.union Tui.Modifier.UNDERLINED) ∧
    translate_font_style
      ((Syntect.FontStyle.BOLD.union Syntect.FontStyle.ITALIC).union
        Syntect.FontStyle.UNDERLINE)
      = .ok ((Tui.Modifier.BOLD.union Tui.Modifier.ITALIC).union
        Tui.Modifier.UNDERLINED) :=
  ⟨rfl, rfl, rfl, rfl, rfl, rfl, rfl, rfl⟩

/-- Claim C2: any u8 bit pattern that is not exactly one of the 8 recognized
values yields an UnknownFontStyle error carrying the raw bit value. -/
theorem c2_translate_font_style_unknown_bits (bits : Nat)
    (hbyte : bits < 256)
    (h : Syntect.FontStyle.mk bits ∉ recognized_font_styles) :
    translate_font_style ⟨bits⟩ =
      .error (SyntectTuiError.UnknownFontStyle bits) := by
  simp [recognized_font_styles, Syntect.FontStyle.empty, Syntect.FontStyle.BOLD,
    Syntect.FontStyle.ITALIC, Syntect.FontStyle.UNDERLINE,
    Syntect.FontStyle.union, Syntect.FontStyle.mk.injEq] at h
  obtain ⟨h0, h1, h4, h2, h5, h3, h6, h7⟩ := h
  simp [translate_font_style, Syntect.FontStyle.empty, Syntect.FontStyle.BOLD,
    Syntect.FontStyle.ITALIC, Syntect.FontStyle.UNDERLINE,
    Syntect.FontStyle.union, Syntect.FontStyle.mk.injEq,
    h0, h1, h2, h3, h4, h5, h6, h7]

/-- Witness for C2 at the concrete unrecognized bit pattern 254. -/
theorem c2_witness :
    (254 : Nat) < 256 ∧
    Syntect.FontStyle.mk 254 ∉ recognized_font_styles ∧
    translate_font_style ⟨254⟩ =
      .error (SyntectTuiError.UnknownFontStyle 254) :=
  ⟨by decide, by decide,
    c2_translate_font_style_unknown_bits 254 (by decide) (by decide)⟩

/-- Claim C3: any SourceColor with alpha 0 translates to None, no matter the
red, green and blue channels. -/
theorem c3_translate_colour_transparent (c : Syntect.Color) (h : c.a = 0) :
    translate_colour c = none := by
  simp [translate_colour, h]

/-- Witness for C3 at a concrete fully transparent colour. -/
theorem c3_witness :
    (Syntect.Color.mk 255 10 20 0).a = 0 ∧
    translate_colour ⟨255, 10, 20, 0⟩ = none :=
  ⟨rfl, c3_translate_colour_transparent ⟨255, 10, 20, 0⟩ rfl⟩

/-- Claim C4: any SourceColor with nonzero alpha (a byte in [1,255])
translates to Some of the Rgb colour copying red, green and blue unchanged;
the right-hand side does not mention alpha, so the result is the same for
every nonzero alpha. -/
theorem c4_translate_colour_opaque (c : Syntect.Color)
    (h1 : 1 ≤ c.a) (h2 : c.a ≤ 255) :
    translate_colour c = some (Tui.Color.Rgb c.r c.g c.b) := by
  simp [translate_colour]
  omega

/-- Witness for C4 at a concrete colour with alpha 128. -/
theorem c4_witness :
    1 ≤ (Syntect.Color.mk 12 123 234 128).a ∧
    (Syntect.Color.mk 12 123 234 128).a ≤ 255 ∧
    translate_colour ⟨12, 123, 234, 128⟩ = some (Tui.Color.Rgb 12 123 234) :=
  ⟨by decide, by decide,
    c4_translate_colour_opaque ⟨12, 123, 234, 128⟩ (by decide) (by decide)⟩

/-- Claim C5: whenever translate_style succeeds, the resulting style's fg and
bg are the colour translations of the input's foreground and background, the
additive modifier is the Ok value of translate_font_style on the input's
font style, and the subtractive modifier is the empty bitset. -/
theorem c5_translate_style_fields (s : Syntect.Style) (t : Tui.Style)
    (h : translate_style s = .ok t) :
    t.fg = translate_colour s.foreground ∧
    t.bg = translate_colour s.background ∧
    translate_font_style s.font_style = .ok t.add_modifier ∧
    t.sub_modifier = Tui.Modifier.empty := by
  cases hf : translate_font_style s.font_style with
  | error e => simp [translate_style, hf, Except.map] at h
  | ok m =>
    simp [translate_style, hf, Except.map] at h
    subst h
    exact ⟨rfl, rfl, rfl, rfl⟩

/-- Witness for C5 at a concrete style with a bold font and one
transparent colour. -/
theorem c5_witness :
    translate_style ⟨⟨255, 0, 0, 255⟩, ⟨0, 0, 0, 0⟩, Syntect.FontStyle.BOLD⟩ =
      .ok ⟨some (Tui.Color.Rgb 255 0 0), none, Tui.Modifier.BOLD,
        Tui.Modifier.empty⟩ ∧
    ((⟨some (Tui.Color.Rgb 255 0 0), none, Tui.Modifier.BOLD,
        Tui.Modifier.empty⟩ : Tui.Style).fg = translate_colour ⟨255, 0, 0, 255⟩ ∧
     (⟨some (Tui.Color.Rgb 255 0 0), none, Tui.Modifier.BOLD,
        Tui.Modifier.empty⟩ : Tui.Style).bg = translate_colour ⟨0, 0, 0, 0⟩ ∧
     translate_font_style Syntect.FontStyle.BOLD =
       .ok (⟨some (Tui.Color.Rgb 255 0 0), none, Tui.Modifier.BOLD,
         Tui.Modifier.empty⟩ : Tui.Style).add_modifier ∧
     (⟨some (Tui.Color.Rgb 255 0 0), none, Tui.Modifier.BOLD,
        Tui.Modifier.empty⟩ : Tui.Style).sub_modifier = Tui.Modifier.empty) :=
  ⟨rfl, c5_translate_style_fields
    ⟨⟨255, 0, 0, 255⟩, ⟨0, 0, 0, 0⟩, Syntect.FontStyle.BOLD⟩
    ⟨some (Tui.Color.Rgb 255 0 0), none, Tui.Modifier.BOLD,
      Tui.Modifier.empty⟩ rfl⟩

/-- Claim C6: translate_style fails exactly when translate_font_style fails
on the style's font_style field, and returns that same error unchanged; the
colour fields never cause failure. -/
theorem c6_translate_style_error_iff (s : Syntect.Style)
    (e : SyntectTuiError) :
    translate_style s = .error e ↔
      translate_font_style s.font_style = .error e := by
  cases hf : translate_font_style s.font_style <;>
    simp [translate_style, hf, Except.map]

/-- Claim C7: into_span returns Ok exactly when translate_style does,
propagating translate_style's error unchanged otherwise; on success the
span's text is an owned copy of the input text and its style is the
translate_style result, and on failure no span is produced. -/
theorem c7_into_span_characterization (s : Syntect.Style) (text : String) :
    (∀ e, into_span (s, text) = .error e ↔ translate_style s = .error e) ∧
    (∀ sp, into_span (s, text) = .ok sp ↔
      ∃ st, translate_style s = .ok st ∧ sp = Tui.Span.styled text st) := by
  cases hs : translate_style s with
  | error e =>
    constructor
    · intro e'
      simp [into_span, hs, Except.map]
    · intro sp
      simp [into_span, hs, Except.map]
  | ok st =>
    constructor
    · intro e'
      simp [into_span, hs, Except.map]
    · intro sp
      simp [into_span, hs, Except.map, eq_comm]

/-- Claim C8: all four operations are deterministic; equal inputs give equal
results, including the same failure on the same failing input. -/
theorem c8_deterministic :
    (∀ c c' : Syntect.Color, c = c' →
      translate_colour c = translate_colour c') ∧
    (∀ f f' : Syntect.FontStyle, f = f' →
      translate_font_style f = translate_font_style f') ∧
    (∀ s s' : Syntect.Style, s = s' →
      translate_style s = translate_style s') ∧
    (∀ a a' : Syntect.Style × String, a = a' → into_span a = into_span a') :=
  ⟨fun _ _ h => congrArg _ h, fun _ _ h => congrArg _ h,
   fun _ _ h => congrArg _ h, fun _ _ h => congrArg _ h⟩

/-- Witness for C8 at concrete inputs, including the failing bit pattern
254 reproducing the same failure. -/
theorem c8_witness :
    translate_colour ⟨255, 0, 0, 0⟩ = translate_colour ⟨255, 0, 0, 0⟩ ∧
    translate_font_style ⟨254⟩ = translate_font_style ⟨254⟩ ∧
    translate_style ⟨⟨1, 2, 3, 4⟩, ⟨5, 6, 7, 0⟩, ⟨254⟩⟩ =
      translate_style ⟨⟨1, 2, 3, 4⟩, ⟨5, 6, 7, 0⟩, ⟨254⟩⟩ ∧
    into_span (⟨⟨1, 2, 3, 4⟩, ⟨5, 6, 7, 0⟩, ⟨254⟩⟩, "hello") =
      into_span (⟨⟨1, 2, 3, 4⟩, ⟨5, 6, 7, 0⟩, ⟨254⟩⟩, "hello") :=
  ⟨c8_deterministic.1 _ _ rfl, c8_deterministic.2.1 _ _ rfl,
   c8_deterministic.2.2.1 _ _ rfl, c8_deterministic.2.2.2 _ _ rfl⟩

/-- Claim C9: for any style whose font_style is one of the 8 recognized
values, the error branch is unreachable through the whole pipeline:
translate_font_style, translate_style, and into_span (for any text) all
return Ok. -/
theorem c9_recognized_never_errors (s : Syntect.Style)
    (h : s.font_style ∈ recognized_font_styles) :
    (∃ m, translate_font_style s.font_style = .ok m) ∧
    (∃ t, translate_style s = .ok t) ∧
    (∀ text, ∃ sp, into_span (s, text) = .ok sp) := by
  have hm : ∃ m, translate_font_style s.font_style = .ok m := by
    simp [recognized_font_styles] at h
    rcases h with h | h | h | h | h | h | h | h <;> rw [h] <;> exact ⟨_, rfl⟩
  obtain ⟨m, hm⟩ := hm
  refine ⟨⟨m, hm⟩,
    ⟨⟨translate_colour s.foreground, translate_colour s.background, m,
      Tui.Modifier.empty⟩, ?_⟩,
    fun text =>
      ⟨⟨text, ⟨translate_colour s.foreground, translate_colour s.background,
        m, Tui.Modifier.empty⟩⟩, ?_⟩⟩ <;>
  simp [translate_style, into_span, hm, Except.map, Tui.Span.styled]

/-- Witness for C9 at a concrete style with an underlined font. -/
theorem c9_witness :
    (⟨⟨1, 2, 3, 4⟩, ⟨5, 6, 7, 0⟩,
        Syntect.FontStyle.UNDERLINE⟩ : Syntect.Style).font_style ∈
      recognized_font_styles ∧
    ((∃ m, translate_font_style
        (⟨⟨1, 2, 3, 4⟩, ⟨5, 6, 7, 0⟩,
          Syntect.FontStyle.UNDERLINE⟩ : Syntect.Style).font_style = .ok m) ∧
     (∃ t, translate_style
        ⟨⟨1, 2, 3, 4⟩, ⟨5, 6, 7, 0⟩, Syntect.FontStyle.UNDERLINE⟩ = .ok t) ∧
     (∀ text, ∃ sp, into_span
        (⟨⟨1, 2, 3, 4⟩, ⟨5, 6, 7, 0⟩, Syntect.FontStyle.UNDERLINE⟩, text) =
          .ok sp)) :=
  ⟨by decide, c9_recognized_never_errors _ (by decide)⟩

/-- Claim C10: every successful translate_font_style result only sets flags
among BOLD, ITALIC and UNDERLINED (its bits are contained in their union),
and translate_style's additive modifier satisfies the same invariant. -/
theorem c10_only_supported_modifier_flags :
    (∀ f m, translate_font_style f = .ok m →
      m.bits &&& (Tui.Modifier.BOLD.bits ||| Tui.Modifier.ITALIC.bits |||
        Tui.Modifier.UNDERLINED.bits) = m.bits) ∧
    (∀ s t, translate_style s = .ok t →
      t.add_modifier.bits &&&
        (Tui.Modifier.BOLD.bits ||| Tui.Modifier.ITALIC.bits |||
          Tui.Modifier.UNDERLINED.bits) = t.add_modifier.bits) := by
  have hfont : ∀ f m, translate_font_style f = .ok m →
      m.bits &&& (Tui.Modifier.BOLD.bits ||| Tui.Modifier.ITALIC.bits |||
        Tui.Modifier.UNDERLINED.bits) = m.bits := by
    intro f m h
    unfold translate_font_style at h
    repeat' split at h
    all_goals try (injection h with h2; subst h2; decide)
    all_goals injection h
  refine ⟨hfont, ?_⟩
  intro s t h
  cases hf : translate_font_style s.font_style with
  | error e => simp [translate_style, hf, Except.map] at h
  | ok m =>
    simp [translate_style, hf, Except.map] at h
    subst h
    exact hfont _ _ hf

/-- Witness for C10 at the bold-italic font style and a full style built
from it. -/
theorem c10_witness :
    translate_font_style
      (Syntect.FontStyle.BOLD.union Syntect.FontStyle.ITALIC) =
      .ok (Tui.Modifier.BOLD.union Tui.Modifier.ITALIC) ∧
    (Tui.Modifier.BOLD.union Tui.Modifier.ITALIC).bits &&&
      (Tui.Modifier.BOLD.bits ||| Tui.Modifier.ITALIC.bits |||
        Tui.Modifier.UNDERLINED.bits) =
      (Tui.Modifier.BOLD.union Tui.Modifier.ITALIC).bits :=
  ⟨rfl, c10_only_supported_modifier_flags.1
    (Syntect.FontStyle.BOLD.union Syntect.FontStyle.ITALIC)
    (Tui.Modifier.BOLD.union Tui.Modifier.ITALIC) rfl⟩
